import Mathlib

/-!
Verification of the `wdc` WebDriver client (Go) against its specification.

The Go source is shallowly embedded: pure logic becomes Lean functions,
I/O outcomes (network round trips, body reads, JSON decoding) become
explicit data passed to those functions, and Go's `error` interface
becomes an inductive type.  Where the repository carries several
versions of a file, the embedded definitions follow the version the
claims cite: for `wdc.go` the middle version (with the `errs` and
`legacyErrs` tables and the `Status` envelope field), for `element.go`
the second version (with `WebElementID` as a string type and the
`WebElement` struct).
-/

namespace Wdc

/-! ## Error taxonomy (wdc.go, middle version, lines 403-478)

Each `errors.New` package-level sentinel from the ERRORS block becomes a
constructor of `WDErr`. -/

/-- Semantic error kinds: the package-level sentinel error values of wdc.go. -/
inductive WDErr where
  | elementClickIntercepted
  | elementNotInteractable
  | insecureCertificate
  | invalidArgument
  | invalidCookieDomain
  | invalidElementState
  | invalidSelector
  | invalidSessionID
  | javaScriptError
  | moveTargetOutOfBounds
  | noSuchAlert
  | noSuchCookie
  | noSuchElement
  | noSuchFrame
  | noSuchWindow
  | scriptTimeout
  | sessionNotCreated
  | staleElementReference
  | timeout
  | unableToSetCookie
  | unableToCaptureScreen
  | unexpectedAlertOpen
  | unknownCommand
  | unknownError
  | unknownMethod
  | unsupportedOperation
  deriving DecidableEq, Repr

/-- Embedding of the `errs` map: W3C error string to sentinel error. -/
def errs : String → Option WDErr
  | "element click intercepted" => some .elementClickIntercepted
  | "element not interactable" => some .elementNotInteractable
  | "insecure certificate" => some .insecureCertificate
  | "invalid argument" => some .invalidArgument
  | "invalid cookie domain" => some .invalidCookieDomain
  | "invalid element state" => some .invalidElementState
  | "invalid selector" => some .invalidSelector
  | "invalid session id" => some .invalidSessionID
  | "javascript error" => some .javaScriptError
  | "move target out of bounds" => some .moveTargetOutOfBounds
  | "no such alert" => some .noSuchAlert
  | "no such cookie" => some .noSuchCookie
  | "no such element" => some .noSuchElement
  | "no such frame" => some .noSuchFrame
  | "no such window" => some .noSuchWindow
  | "script timeout" => some .scriptTimeout
  | "session not created" => some .sessionNotCreated
  | "stale element reference" => some .staleElementReference
  | "timeout" => some .timeout
  | "unable to set cookie" => some .unableToSetCookie
  | "unable to capture screen" => some .unableToCaptureScreen
  | "unexpected alert open" => some .unexpectedAlertOpen
  | "unknown command" => some .unknownCommand
  | "unknown error" => some .unknownError
  | "unknown method" => some .unknownMethod
  | "unsupported operation" => some .unsupportedOperation
  | _ => none

/-- Embedding of the `legacyErrs` map: legacy numeric status to sentinel error. -/
def legacyErrs : Int → Option WDErr
  | 7 => some .noSuchElement
  | 8 => some .noSuchFrame
  | 9 => some .unknownCommand
  | 10 => some .staleElementReference
  | 12 => some .invalidElementState
  | 13 => some .unknownError
  | 17 => some .javaScriptError
  | 21 => some .timeout
  | 23 => some .noSuchWindow
  | 24 => some .invalidCookieDomain
  | 25 => some .unableToSetCookie
  | 26 => some .unexpectedAlertOpen
  | 28 => some .scriptTimeout
  | 32 => some .invalidSelector
  | 33 => some .sessionNotCreated
  | 34 => some .moveTargetOutOfBounds
  | _ => none

/-! ## Error envelope (wdc.go, middle version, lines 480-512) -/

/-- Embedding of `ErrorStackTrace`. -/
structure ErrorStackTrace where
  fileName : String
  methodName : String
  className : String
  lineNumber : Int
  deriving DecidableEq, Repr

/-- Embedding of `ErrorValue`: the W3C failure payload. -/
structure ErrorValue where
  err : String
  message : String
  stacktrace : String
  stackTrace : List ErrorStackTrace
  deriving DecidableEq, Repr

/-- Embedding of `ErrorResponse`: the wire error envelope, with the legacy
numeric `Status` field of the middle version of wdc.go. -/
structure ErrorResponse where
  sessionId : String
  value : ErrorValue
  status : Int
  deriving DecidableEq, Repr

/-- Values of Go's `error` interface as they occur in the embedded code.

`sentinel e` is a bare package-level sentinel (for example the
`ErrorNoSuchElement` returned by `ElementFind`); `wrapped e resp` is
`fmt.Errorf("%w: %s", e, errResp)` produced by `check`; `envelope resp`
is a bare `*ErrorResponse`; `strMsg` covers inline `errors.New` values;
`ioErr` an `ioutil.ReadAll` failure; `jsonErr` a JSON unmarshal or decode
failure; `ctxErr` a context error; `netErr` a raw network error. -/
inductive GoError where
  | sentinel (e : WDErr)
  | wrapped (e : WDErr) (resp : ErrorResponse)
  | envelope (resp : ErrorResponse)
  | strMsg (msg : String)
  | ioErr (msg : String)
  | jsonErr (msg : String)
  | ctxErr (msg : String)
  | netErr (msg : String)
  deriving DecidableEq, Repr

/-- Decidable equality for `Except`, used to evaluate embedded results on
concrete inputs. -/
instance exceptDecEq {ε α : Type} [DecidableEq ε] [DecidableEq α] :
    DecidableEq (Except ε α) := fun a b =>
  match a, b with
  | .error x, .error y => decidable_of_iff (x = y) (by simp)
  | .error _, .ok _ => .isFalse (by simp)
  | .ok _, .error _ => .isFalse (by simp)
  | .ok x, .ok y => decidable_of_iff (x = y) (by simp)

/-- Embedding of `errors.Is err target` for a sentinel target: true for the
sentinel itself and for the `%w`-wrapped form `check` produces. -/
def GoError.isW (g : GoError) (e : WDErr) : Bool :=
  match g with
  | .sentinel e' => e' = e
  | .wrapped e' _ => e' = e
  | _ => false

/-- Semantic kind carried by an error, if any: the sentinel it is or wraps. -/
def GoError.kindOf : GoError → Option WDErr
  | .sentinel e => some e
  | .wrapped e _ => some e
  | _ => none

/-! ## Response pipeline: check (wdc.go, middle version, lines 324-358) -/

/-- Outcome of `ioutil.ReadAll` followed by `json.Unmarshal` on the error
body: the read itself failed, or it yielded bytes that fail to unmarshal,
or bytes that unmarshal to an `ErrorResponse`.  (On a successful read the
Go code's `data != nil` guard is always taken, since `ReadAll` returns a
non-nil slice on success, so the unmarshal always runs.) -/
inductive ReadOutcome where
  | ioError (msg : String)
  | parseError (msg : String)
  | parsed (resp : ErrorResponse)
  deriving DecidableEq, Repr

/-- Embedding of `check` (middle version): 2xx statuses pass; otherwise the
body is read and unmarshalled as an `ErrorResponse`, the string `error`
discriminant is consulted first via `errs`, and the legacy numeric
`status` only as fallback via `legacyErrs`. -/
def check (statusCode : Int) (body : ReadOutcome) : Option GoError :=
  if 200 ≤ statusCode ∧ statusCode ≤ 299 then
    none
  else
    match body with
    | .ioError msg => some (.ioErr msg)
    | .parseError msg => some (.jsonErr msg)
    | .parsed errResp =>
      if errResp.value.err ≠ "" then
        match errs errResp.value.err with
        | some e => some (.wrapped e errResp)
        | none => some (.envelope errResp)
      else if errResp.status ≠ 0 then
        match legacyErrs errResp.status with
        | some e => some (.wrapped e errResp)
        | none => some (.envelope errResp)
      else
        some (.envelope errResp)

/-- Semantic kind of the error `check` classifies a body under, if any. -/
def checkKind (statusCode : Int) (body : ReadOutcome) : Option WDErr :=
  (check statusCode body).bind GoError.kindOf

/-! ## Transport: do (wdc.go, middle version, lines 291-321) -/

/-- Outcome of `json.NewDecoder(resp.Body).Decode(v)` on the success body:
an empty body hits `io.EOF` at once, otherwise the decode yields a value
or a decode error. -/
inductive DecodeOutcome (α : Type) where
  | eof
  | ok (v : α)
  | fail (msg : String)
  deriving DecidableEq, Repr

/-- A raw HTTP response as `do` sees it: the status code, the outcome the
error-body read would have (consumed by `check` on non-2xx statuses), and
the outcome the success-body decode would have (consumed only on 2xx with
a non-nil sink; the body is a single stream, so only one of the two is
ever used on a given path). -/
structure HTTPResponse (α : Type) where
  statusCode : Int
  errBody : ReadOutcome
  decode : DecodeOutcome α
  deriving DecidableEq, Repr

/-- Outcome of `c.client.Do(req)`: either a network-level failure (with the
state of `ctx.Done()` at the `select`, the context error text and the raw
network error text), or a response. -/
inductive TransportOutcome (α : Type) where
  | netFailure (ctxDone : Bool) (ctxMsg : String) (netMsg : String)
  | response (r : HTTPResponse α)
  deriving DecidableEq, Repr

/-- Result state of one `do` call: the returned error, the final contents
of the caller's sink (which starts at its zero value `zero`), whether the
success-body decoder was invoked at all, and whether the response body
was closed (the `defer safeclose` registered once a response exists). -/
structure DoResult (α : Type) where
  error : Option GoError
  sink : α
  bodyDecoded : Bool
  closed : Bool
  deriving DecidableEq, Repr

/-- Embedding of `do` (middle version): on network failure prefer the
context error when the context is done; otherwise classify via `check`;
on a classification error return it with the sink untouched; with a nil
sink (`hasSink = false`) stop after classification; otherwise decode,
treating `io.EOF` (empty body) as success with the sink untouched. -/
def doReq {α : Type} (tr : TransportOutcome α) (hasSink : Bool) (zero : α) :
    DoResult α :=
  match tr with
  | .netFailure ctxDone ctxMsg netMsg =>
    if ctxDone then ⟨some (.ctxErr ctxMsg), zero, false, false⟩
    else ⟨some (.netErr netMsg), zero, false, false⟩
  | .response r =>
    match check r.statusCode r.errBody with
    | some e => ⟨some e, zero, false, true⟩
    | none =>
      if hasSink then
        match r.decode with
        | .eof => ⟨none, zero, true, true⟩
        | .ok v => ⟨none, v, true, true⟩
        | .fail msg => ⟨some (.jsonErr msg), zero, true, true⟩
      else ⟨none, zero, false, true⟩

/-! ## safeclose (wdc.go, middle version lines 518-524 and third version
lines 739-745) -/

/-- Observable effect of `safeclose` on the process: nothing, `log.Panic`
(logs, then raises a panic that nothing in the package recovers), or
`log.Fatal` (logs, then calls `os.Exit(1)`). -/
inductive CloseEffect where
  | noop
  | logPanic (msg : String)
  | logFatal (msg : String)
  deriving DecidableEq, Repr

/-- Embedding of `safeclose` of the middle version of wdc.go: a close
failure is passed to `log.Panic`. -/
def safeclose (closeErr : Option String) : CloseEffect :=
  match closeErr with
  | none => .noop
  | some msg => .logPanic msg

/-- Embedding of `safeclose` of the first and third versions of wdc.go: a
close failure is passed to `log.Fatal`. -/
def safecloseFatal (closeErr : Option String) : CloseEffect :=
  match closeErr with
  | none => .noop
  | some msg => .logFatal msg

/-- Whether the effect logs the close failure. -/
def CloseEffect.logged : CloseEffect → Bool
  | .noop => false
  | .logPanic _ => true
  | .logFatal _ => true

/-- Whether the effect terminates the process: `log.Fatal` exits with status
1; `log.Panic` panics, and no `recover` exists anywhere in the package,
so the panic unwinds `do` and its callers and crashes the process. -/
def CloseEffect.terminatesProcess : CloseEffect → Bool
  | .noop => false
  | .logPanic _ => true
  | .logFatal _ => true

/-! ## Constructor New (wdc.go, middle version, lines 245-269)

Go strings are modelled as Lean `String`; `strings.HasSuffix` and
`strings.TrimSuffix` are embedded over the character list so that every
step is kernel-computable. -/

/-- Embedding of `strings.HasSuffix`. -/
def strHasSuffix (s suffix : String) : Bool :=
  List.isSuffixOf suffix.data s.data

/-- Embedding of `strings.TrimSuffix`: removes one occurrence of the
suffix, when present (`s[:len(s)-len(suffix)]`). -/
def trimSuffix (s suffix : String) : String :=
  if strHasSuffix s suffix then
    String.mk (s.data.take (s.data.length - suffix.data.length))
  else s

/-- Normalization `New` applies to the base URL:
`strings.TrimSuffix(s.URL, "/") + "/"`. -/
def normalizeURL (u : String) : String :=
  trimSuffix u "/" ++ "/"

/-- Embedding of `Session`. -/
structure Session where
  id : String
  url : String
  deriving DecidableEq, Repr

/-- Embedding of `Client`: the bound (pointer-shared) session and the
parsed base URL, kept as its string. -/
structure Client where
  session : Session
  url : String
  deriving DecidableEq, Repr

/-- Embedding of `New` (middle version).  Go mutates the caller's
`*Session` in place (`s.URL = strings.TrimSuffix(s.URL, "/") + "/"`), so
the model returns the caller's session state after the call alongside
the constructor's result.  `url.Parse` is external library code,
abstracted as the predicate `parseOk`; the mutation happens before the
parse, so the session is updated even when the parse fails. -/
def New (parseOk : String → Bool) (s : Option Session) :
    Option Session × Except GoError Client :=
  match s with
  | none => (none, .error (.strMsg "session is empty"))
  | some sess =>
    if sess.url = "" then
      (some sess, .error (.strMsg "URL is empty"))
    else
      let sess' : Session := { sess with url := normalizeURL sess.url }
      if parseOk sess'.url then
        (some sess', .ok ⟨sess', sess'.url⟩)
      else
        (some sess', .error (.strMsg "parse error"))

/-- Whether a string ends in exactly one '/': it has "/" as a suffix but
not "//". -/
def endsInExactlyOneSlash (s : String) : Bool :=
  strHasSuffix s "/" && !strHasSuffix s "//"

/-! ## Element resolution (element.go, second version, lines 665-706 and
839-886)

The decoded `value` of an element-lookup response is
`map[WebElementID]WebElementReference`; a Go map lookup is modelled as an
association-list lookup. -/

/-- W3C element marker key (`WebElementIDW3C`). -/
def WebElementIDW3C : String := "element-6066-11e4-a52e-4f735466cecf"

/-- Legacy element marker key (`WebElementIDLegacy`). -/
def WebElementIDLegacy : String := "ELEMENT"

/-- Embedding of `WebElement`: the marker that matched and the reference. -/
structure WebElement where
  id : String
  reference : String
  deriving DecidableEq, Repr

/-- Decoded `value` map of an element-lookup response. -/
abbrev ElemMap : Type := List (String × String)

/-- Embedding of the tail of `ElementFind` (and `ElementFindShadowDOM`):
resolve a decoded value map to a tagged element, W3C marker first, then
legacy marker, and treat "neither present" as `ErrorNoSuchElement`. -/
def resolveElement (m : ElemMap) : Except GoError WebElement :=
  match List.lookup WebElementIDW3C m with
  | some ref => .ok ⟨WebElementIDW3C, ref⟩
  | none =>
    match List.lookup WebElementIDLegacy m with
    | some ref => .ok ⟨WebElementIDLegacy, ref⟩
    | none => .error (.sentinel .noSuchElement)

/-- Embedding of `ElementFind` (element.go, second version, lines 668-706):
the validation checks, then the `do` round trip (whose outcome, the
decoded value map or an error, is the `doOutcome` argument), then
resolution.  The locator-strategy argument `b` embeds the Go parameter
`by`. -/
def ElementFind (b v : String) (doOutcome : Except GoError ElemMap) :
    Except GoError WebElement :=
  if b = "" then .error (.strMsg "locator strategy is empty")
  else if v = "" then .error (.strMsg "value is empty")
  else
    match doOutcome with
    | .error e => .error e
    | .ok m => resolveElement m

/-- Per-entry resolution inside `ElementsFind`'s loop: an entry with
neither marker key is skipped by the loop, leaving the zero-valued
`WebElement` placeholder that `make` put at that index. -/
def resolveEntry (m : ElemMap) : WebElement :=
  match List.lookup WebElementIDW3C m with
  | some ref => ⟨WebElementIDW3C, ref⟩
  | none =>
    match List.lookup WebElementIDLegacy m with
    | some ref => ⟨WebElementIDLegacy, ref⟩
    | none => ⟨"", ""⟩

/-- Embedding of `ElementsFind` (element.go, second version, lines
839-886): validations, the `do` round trip, `ErrorNoSuchElement` on an
empty decoded list, and otherwise the `make`-and-assign loop over the
entries. -/
def ElementsFind (b v : String) (doOutcome : Except GoError (List ElemMap)) :
    Except GoError (List WebElement) :=
  if b = "" then .error (.strMsg "locator strategy is empty")
  else if v = "" then .error (.strMsg "value is empty")
  else
    match doOutcome with
    | .error e => .error e
    | .ok ms =>
      if ms.length = 0 then .error (.sentinel .noSuchElement)
      else .ok (ms.map resolveEntry)

/-! ## Poll-until loops (element.go, second version, lines 709-742 and
1345-1375)

Time is modelled discretely under the idealization that each `c.do`
round trip is instantaneous, so the wall-clock elapsed time observed by
`time.Since(start)` right after attempt number `n` (0-based) is the `n`
completed sleeps, `n * i`.  The Go loops are unbounded `for` loops; the
embedding uses explicit fuel, and the top-level wrappers supply
`t / i + 2` fuel, which the timeout lemmas show is never exhausted when
`i > 0`. -/

/-- Result of a polling loop: the predicate was satisfied, the deadline
passed (with the elapsed time the timeout error reports), an attempt's
error was surfaced, or the fuel ran out.  Every constructor carries the
number of command attempts issued and of sleeps executed. -/
inductive PollResult (α : Type) where
  | satisfied (v : α) (attempts : Nat) (sleeps : Nat)
  | timedOut (elapsed : Nat) (attempts : Nat) (sleeps : Nat)
  | errored (e : GoError) (attempts : Nat) (sleeps : Nat)
  | outOfFuel (attempts : Nat) (sleeps : Nat)
  deriving DecidableEq, Repr

/-- Number of command attempts a poll result records. -/
def PollResult.attempts {α : Type} : PollResult α → Nat
  | .satisfied _ n _ => n
  | .timedOut _ n _ => n
  | .errored _ n _ => n
  | .outOfFuel n _ => n

/-- Embedding of the `for` loop of `ElementWaitForEnabled`: issue the
command (attempt `n`, outcome `doRes n`), surface any error at once,
return on `res.Value == true`, time out when the elapsed time strictly
exceeds `t`, otherwise sleep `i` and loop. -/
def waitLoopEnabled (doRes : Nat → Except GoError Bool) (i t : Nat) :
    Nat → Nat → Nat → PollResult Bool
  | 0, n, slept => .outOfFuel n slept
  | fuel + 1, n, slept =>
    match doRes n with
    | .error e => .errored e (n + 1) slept
    | .ok v =>
      if v = true then .satisfied v (n + 1) slept
      else if n * i > t then .timedOut (n * i) (n + 1) slept
      else waitLoopEnabled doRes i t fuel (n + 1) (slept + 1)

/-- Embedding of `ElementWaitForEnabled` (element.go, second version,
lines 1345-1375): the validation check, then the polling loop. -/
def ElementWaitForEnabled (eRef : String) (doRes : Nat → Except GoError Bool)
    (i t : Nat) : PollResult Bool :=
  if eRef = "" then .errored (.strMsg "element is empty") 0 0
  else waitLoopEnabled doRes i t (t / i + 2) 0 0

/-- Embedding of the `for` loop of `ElementWaitForUndefined`: issue the
command; an error satisfying `errors.Is(err, ErrorNoSuchElement)` means
the element is gone and the loop returns success; any other error is
surfaced at once; a successful lookup means the element still exists, so
time out or sleep and loop. -/
def waitLoopUndefined (doRes : Nat → Except GoError ElemMap) (i t : Nat) :
    Nat → Nat → Nat → PollResult Unit
  | 0, n, slept => .outOfFuel n slept
  | fuel + 1, n, slept =>
    match doRes n with
    | .error e =>
      if e.isW .noSuchElement then .satisfied () (n + 1) slept
      else .errored e (n + 1) slept
    | .ok _ =>
      if n * i > t then .timedOut (n * i) (n + 1) slept
      else waitLoopUndefined doRes i t fuel (n + 1) (slept + 1)

/-- Embedding of `ElementWaitForUndefined` (element.go, second version,
lines 709-742); it performs no argument validation before the loop. -/
def ElementWaitForUndefined (doRes : Nat → Except GoError ElemMap)
    (i t : Nat) : PollResult Unit :=
  waitLoopUndefined doRes i t (t / i + 2) 0 0

/-! ## Helper lemmas on the string model -/

/-- Characterization of the embedded `strings.HasSuffix` by the list
suffix relation. -/
theorem strHasSuffix_iff (s suf : String) :
    strHasSuffix s suf = true ↔ suf.data <:+ s.data := by
  simp [strHasSuffix, List.isSuffixOf_iff_suffix]

/-- Normalizing a URL that already ends in '/' is the identity: the trim
removes the final '/' and the append restores it. -/
theorem normalizeURL_of_ends_slash {u : String}
    (h : strHasSuffix u "/" = true) : normalizeURL u = u := by
  obtain ⟨t, ht⟩ := (strHasSuffix_iff u "/").1 h
  have hd : ("/" : String).data = ['/'] := rfl
  rw [hd] at ht
  apply String.ext
  simp only [normalizeURL, trimSuffix, if_pos h, String.data_append, hd]
  show (u.data.take (u.data.length - 1)) ++ ['/'] = u.data
  rw [← ht]
  simp only [List.length_append, List.length_cons, List.length_nil]
  have hlen : t.length + (0 + 1) - 1 = t.length := by omega
  rw [hlen, List.take_left]

/-- Normalizing a URL with no trailing '/' appends exactly one '/'. -/
theorem normalizeURL_of_not_ends_slash {u : String}
    (h : strHasSuffix u "/" = false) : normalizeURL u = u ++ "/" := by
  simp [normalizeURL, trimSuffix, h]

/-- The normalized URL always ends in '/'. -/
theorem normalizeURL_ends_slash (u : String) :
    strHasSuffix (normalizeURL u) "/" = true := by
  rw [strHasSuffix_iff, normalizeURL, String.data_append]
  exact List.suffix_append _ _

/-- When the input does not end in two slashes, the normalized URL ends in
exactly one. -/
theorem normalizeURL_one_slash {u : String}
    (h : strHasSuffix u "//" = false) :
    endsInExactlyOneSlash (normalizeURL u) = true := by
  cases hu : strHasSuffix u "/" with
  | true =>
    rw [normalizeURL_of_ends_slash hu]
    simp [endsInExactlyOneSlash, hu, h]
  | false =>
    rw [normalizeURL_of_not_ends_slash hu]
    have h1 : strHasSuffix (u ++ "/") "/" = true := by
      rw [strHasSuffix_iff, String.data_append]
      exact List.suffix_append _ _
    have h2 : strHasSuffix (u ++ "/") "//" = false := by
      cases hc : strHasSuffix (u ++ "/") "//" with
      | false => rfl
      | true =>
        exfalso
        obtain ⟨t, ht⟩ := (strHasSuffix_iff _ _).1 hc
        have hd2 : ("//" : String).data = ['/', '/'] := rfl
        rw [hd2, String.data_append] at ht
        have hd1 : ("/" : String).data = ['/'] := rfl
        rw [hd1] at ht
        have ht' : (t ++ ['/']) ++ ['/'] = u.data ++ ['/'] := by
          simpa [List.append_assoc] using ht
        have h3 : t ++ ['/'] = u.data := List.append_cancel_right ht'
        have h4 : strHasSuffix u "/" = true := by
          rw [strHasSuffix_iff, hd1]
          exact ⟨t, h3⟩
        rw [hu] at h4
        exact Bool.false_ne_true h4
    simp [endsInExactlyOneSlash, h1, h2]

/-- When the input does not end in '/', normalization changes the string
(it is one character longer). -/
theorem normalizeURL_ne_of_not_ends_slash {u : String}
    (h : strHasSuffix u "/" = false) : normalizeURL u ≠ u := by
  rw [normalizeURL_of_not_ends_slash h]
  intro hc
  have hlen : (u ++ "/").data.length = u.data.length := by rw [hc]
  rw [String.data_append] at hlen
  simp at hlen

/-! ## Helper lemmas on the polling loops -/

/-- Arithmetic fact behind the timeout: one more full interval past
`t / i` intervals strictly exceeds `t`. -/
theorem div_succ_mul_gt (t : Nat) {i : Nat} (hi : 0 < i) :
    t < (t / i + 1) * i := by
  have h1 := Nat.div_add_mod t i
  have h2 := Nat.mod_lt t hi
  nlinarith

/-- One step of the `ElementWaitForEnabled` loop when the command returns
a false value: time out or sleep and continue. -/
theorem waitLoopEnabled_ok_false (doRes : Nat → Except GoError Bool)
    (i t fuel n slept : Nat) (h : doRes n = .ok false) :
    waitLoopEnabled doRes i t (fuel + 1) n slept =
      (if n * i > t then .timedOut (n * i) (n + 1) slept
       else waitLoopEnabled doRes i t fuel (n + 1) (slept + 1)) := by
  rw [waitLoopEnabled, h]
  rfl

/-- One step of the `ElementWaitForUndefined` loop when the command
errors: success on the not-found error, surface anything else. -/
theorem waitLoopUndefined_error (doResM : Nat → Except GoError ElemMap)
    (i t fuel n slept : Nat) (e : GoError) (h : doResM n = .error e) :
    waitLoopUndefined doResM i t (fuel + 1) n slept =
      (if e.isW .noSuchElement = true then .satisfied () (n + 1) slept
       else .errored e (n + 1) slept) := by
  rw [waitLoopUndefined, h]

/-- The `ElementWaitForEnabled` loop, entered at attempt `n` with a command
that always succeeds with a false value, runs until the first attempt
whose elapsed time `n * i` strictly exceeds `t` and then times out;
counting from attempt 0 that is attempt number `t / i + 1`, so
`t / i + 2` attempts and `t / i + 1` sleeps happen in total. -/
theorem waitLoopEnabled_never (doRes : Nat → Except GoError Bool)
    (hall : ∀ n, doRes n = .ok false) (i t : Nat) (hi : 0 < i) :
    ∀ d n slept, n + d = t / i + 1 →
      waitLoopEnabled doRes i t (d + 1) n slept =
        .timedOut ((t / i + 1) * i) (t / i + 2) (slept + d) := by
  intro d
  induction d with
  | zero =>
    intro n slept hn
    have hn' : n = t / i + 1 := by omega
    subst hn'
    have hgt : (t / i + 1) * i > t := div_succ_mul_gt t hi
    rw [waitLoopEnabled_ok_false doRes i t 0 _ slept (hall _), if_pos hgt]
    rfl
  | succ d ih =>
    intro n slept hn
    have hle : n ≤ t / i := by omega
    have hnot : ¬(n * i > t) := by
      have h1 : n * i ≤ t / i * i := Nat.mul_le_mul_right i hle
      have h2 : t / i * i ≤ t := Nat.div_mul_le_self t i
      omega
    rw [waitLoopEnabled_ok_false doRes i t (d + 1) n slept (hall n),
      if_neg hnot]
    have hrec := ih (n + 1) (slept + 1) (by omega)
    have harith : slept + 1 + d = slept + (d + 1) := by omega
    rw [harith] at hrec
    exact hrec

/-! ## Claim C3: attempt counting of the poll-until loop -/

/-- C3, counterexample: with interval 2 and max wait 5, a command whose
predicate never holds, and each attempt modelled as instantaneous, the
loop makes 4 attempts, not `floor(5/2) + 1 = 3` as the claim states:
the timeout check runs after each attempt with a strict comparison, so
one more attempt follows the last full sleep. -/
theorem claim3_counterexample :
    ¬((ElementWaitForEnabled "e" (fun _ => .ok false) 2 5).attempts =
        5 / 2 + 1) := by
  decide

/-- C3, amended: for interval `i > 0` and max wait `t` (attempts modelled
as instantaneous): if the predicate holds on the first attempt, exactly
one command is issued and no sleep occurs; if the predicate never holds
and no transport error occurs, the loop makes `t / i + 2` command
attempts (not `t / i + 1`) with `t / i + 1` sleeps, and the final
result is a timeout error reporting an elapsed time strictly greater
than `t`. -/
theorem claim3_poll_amended (eRef : String) (doRes : Nat → Except GoError Bool)
    (i t : Nat) (hi : 0 < i) (he : eRef ≠ "") :
    (doRes 0 = .ok true →
      ElementWaitForEnabled eRef doRes i t = .satisfied true 1 0) ∧
    ((∀ n, doRes n = .ok false) →
      ElementWaitForEnabled eRef doRes i t =
        .timedOut ((t / i + 1) * i) (t / i + 2) (t / i + 1) ∧
      t < (t / i + 1) * i) := by
  constructor
  · intro h0
    rw [ElementWaitForEnabled, if_neg he]
    rw [show t / i + 2 = t / i + 1 + 1 from rfl]
    rw [waitLoopEnabled, h0]
    rfl
  · intro hall
    refine ⟨?_, div_succ_mul_gt t hi⟩
    rw [ElementWaitForEnabled, if_neg he]
    have h := waitLoopEnabled_never doRes hall i t hi (t / i + 1) 0 0 (by omega)
    have h0 : (0 : Nat) + (t / i + 1) = t / i + 1 := by omega
    rw [h0] at h
    exact h

/-- C3, witness for the amended theorem: interval 2, max wait 5, command
always returning a false value; 4 attempts, 3 sleeps, elapsed 6 > 5. -/
theorem claim3_witness :
    0 < 2 ∧ ("e" : String) ≠ "" ∧
    (ElementWaitForEnabled "e" (fun _ => .ok false) 2 5 =
        .timedOut 6 4 3 ∧ 5 < 6) :=
  ⟨by decide, by decide,
    (claim3_poll_amended "e" (fun _ => .ok false) 2 5 (by decide)
      (by decide)).2 (fun _ => rfl)⟩

/-! ## Claim C9: errors during polling -/

/-- C9: at any iteration of the polling loops, a command error ends the
loop at once with no further attempts: `ElementWaitForEnabled`
surfaces every error, and `ElementWaitForUndefined` surfaces every
error except one satisfying `errors.Is(err, ErrorNoSuchElement)`, which
it instead treats as the awaited absence and returns success. -/
theorem claim9_error_during_poll (doResB : Nat → Except GoError Bool)
    (doResM : Nat → Except GoError ElemMap) (i t fuel n slept : Nat)
    (e : GoError) :
    (doResB n = .error e →
      waitLoopEnabled doResB i t (fuel + 1) n slept =
        .errored e (n + 1) slept) ∧
    (doResM n = .error e → e.isW .noSuchElement = false →
      waitLoopUndefined doResM i t (fuel + 1) n slept =
        .errored e (n + 1) slept) ∧
    (doResM n = .error e → e.isW .noSuchElement = true →
      waitLoopUndefined doResM i t (fuel + 1) n slept =
        .satisfied () (n + 1) slept) := by
  refine ⟨fun h => ?_, fun h hw => ?_, fun h hw => ?_⟩
  · rw [waitLoopEnabled, h]
  · rw [waitLoopUndefined_error doResM i t fuel n slept e h,
      if_neg (by simp [hw] : ¬(e.isW .noSuchElement = true))]
  · rw [waitLoopUndefined_error doResM i t fuel n slept e h, if_pos hw]

/-- C9, witness: a network error at the first attempt stops both loops at
once; a not-found error lets the wait-for-absence loop succeed at once
(the wrapped form `check` produces also satisfies `errors.Is`). -/
theorem claim9_witness :
    waitLoopEnabled (fun _ => .error (.netErr "x")) 1 5 3 0 0 =
      .errored (.netErr "x") 1 0 ∧
    waitLoopUndefined (fun _ => .error (.netErr "x")) 1 5 3 0 0 =
      .errored (.netErr "x") 1 0 ∧
    waitLoopUndefined (fun _ => .error (.sentinel .noSuchElement)) 1 5 3 0 0 =
      .satisfied () 1 0 :=
  ⟨(claim9_error_during_poll (fun _ => .error (.netErr "x"))
      (fun _ => .error (.netErr "x")) 1 5 2 0 0 (.netErr "x")).1 rfl,
    (claim9_error_during_poll (fun _ => .error (.netErr "x"))
      (fun _ => .error (.netErr "x")) 1 5 2 0 0 (.netErr "x")).2.1 rfl
      (by decide),
    (claim9_error_during_poll (fun _ => .error (.netErr "x"))
      (fun _ => .error (.sentinel .noSuchElement)) 1 5 2 0 0
      (.sentinel .noSuchElement)).2.2 rfl (by decide)⟩

/-! ## Claim C1: status classification and the success sink -/

/-- C1: `check` classifies exactly the statuses in [200,299] as success
(returns no error); for every other status it returns an error
whatever the body looks like, and on such a response `do` returns that
error with the caller's sink left at its zero value, so a decoded
success value is only ever produced for 2xx statuses. -/
theorem claim1_status_classification {α : Type} (c : Int) (b : ReadOutcome)
    (d : DecodeOutcome α) (hasSink : Bool) (zero : α) :
    (check c b = none ↔ 200 ≤ c ∧ c ≤ 299) ∧
    (¬(200 ≤ c ∧ c ≤ 299) →
      (doReq (.response ⟨c, b, d⟩) hasSink zero).error.isSome = true ∧
      (doReq (.response ⟨c, b, d⟩) hasSink zero).sink = zero) := by
  have hsome : ¬(200 ≤ c ∧ c ≤ 299) → (check c b).isSome = true := by
    intro hc
    rw [check.eq_def, if_neg hc]
    split
    · rfl
    · rfl
    · split
      · split <;> rfl
      · split
        · split <;> rfl
        · rfl
  constructor
  · constructor
    · intro h
      by_contra hc
      have hi := hsome hc
      rw [h] at hi
      simp at hi
    · intro h2
      rw [check.eq_def, if_pos h2]
  · intro hc
    obtain ⟨e, he⟩ := Option.isSome_iff_exists.mp (hsome hc)
    simp [doReq, he]

/-- C1, witness at status 404 with a parsed error envelope. -/
theorem claim1_witness :
    ¬(200 ≤ (404 : Int) ∧ (404 : Int) ≤ 299) ∧
    ((doReq (α := Bool)
        (.response ⟨404, .parsed ⟨"", ⟨"unknown error", "m", "", []⟩, 0⟩,
          .ok true⟩) true false).error.isSome = true ∧
      (doReq (α := Bool)
        (.response ⟨404, .parsed ⟨"", ⟨"unknown error", "m", "", []⟩, 0⟩,
          .ok true⟩) true false).sink = false) :=
  ⟨by decide,
    (claim1_status_classification 404
      (.parsed ⟨"", ⟨"unknown error", "m", "", []⟩, 0⟩)
      (.ok true) true false).2 (by decide)⟩

/-! ## Claim C2: the two dialects converge on element-not-found -/

/-- C2: for every non-2xx response whose envelope carries the W3C string
`error = "no such element"`, `check` returns an error of semantic kind
`noSuchElement`, for every message text, session id, stacktrace, and —
showing the string discriminant is preferred — every legacy status
value; and for every envelope with an empty `error` string and legacy
`status = 7`, `check` returns the same kind. -/
theorem claim2_dialect_convergence (c : Int) (hc : ¬(200 ≤ c ∧ c ≤ 299))
    (sid sid' msg msg' stck stck' : String)
    (strace strace' : List ErrorStackTrace) (st : Int) :
    checkKind c (.parsed ⟨sid, ⟨"no such element", msg, stck, strace⟩, st⟩) =
      some .noSuchElement ∧
    checkKind c (.parsed ⟨sid', ⟨"", msg', stck', strace'⟩, 7⟩) =
      some .noSuchElement := by
  constructor
  · rw [checkKind, check.eq_def, if_neg hc]
    rfl
  · rw [checkKind, check.eq_def, if_neg hc]
    rfl

/-- C2, witness at status 404: the W3C string dialect (with a conflicting
legacy status 21) and the legacy numeric dialect both classify as
element-not-found. -/
theorem claim2_witness :
    ¬(200 ≤ (404 : Int) ∧ (404 : Int) ≤ 299) ∧
    (checkKind 404
        (.parsed ⟨"s", ⟨"no such element", "Unable to locate element", "",
          []⟩, 21⟩) = some .noSuchElement ∧
      checkKind 404 (.parsed ⟨"s", ⟨"", "legacy not found", "", []⟩, 7⟩) =
        some .noSuchElement) :=
  ⟨by decide,
    claim2_dialect_convergence 404 (by decide) "s" "s"
      "Unable to locate element" "legacy not found" "" "" [] [] 21⟩

/-! ## Claim C8: nil sink and empty body in do -/

/-- C8: with a nil result sink, `do` returns right after classification —
the success-body decoder never runs, the returned error is exactly the
classification result, and the sink stays at its zero value; with a
non-nil sink, a 2xx response whose body is empty (decode hits EOF at
once) yields no error and leaves the sink at its zero value. -/
theorem claim8_sink_handling {α : Type} (r : HTTPResponse α) (zero : α) :
    ((doReq (.response r) false zero).bodyDecoded = false ∧
      (doReq (.response r) false zero).error = check r.statusCode r.errBody ∧
      (doReq (.response r) false zero).sink = zero) ∧
    (200 ≤ r.statusCode ∧ r.statusCode ≤ 299 → r.decode = .eof →
      doReq (.response r) true zero = ⟨none, zero, true, true⟩) := by
  constructor
  · rw [doReq]
    cases check r.statusCode r.errBody with
    | some e => exact ⟨rfl, rfl, rfl⟩
    | none => exact ⟨rfl, rfl, rfl⟩
  · intro h2 hd
    rw [doReq, check.eq_def, if_pos h2, hd]
    rfl

/-- C8, witness: a 200 response with an empty body and a Bool sink. -/
theorem claim8_witness :
    (((doReq (α := Bool)
        (.response ⟨200, .parsed ⟨"", ⟨"", "", "", []⟩, 0⟩, .eof⟩)
        false false).bodyDecoded = false ∧
      (doReq (α := Bool)
        (.response ⟨200, .parsed ⟨"", ⟨"", "", "", []⟩, 0⟩, .eof⟩)
        false false).error =
        check 200 (.parsed ⟨"", ⟨"", "", "", []⟩, 0⟩) ∧
      (doReq (α := Bool)
        (.response ⟨200, .parsed ⟨"", ⟨"", "", "", []⟩, 0⟩, .eof⟩)
        false false).sink = false) ∧
    (200 ≤ (200 : Int) ∧ (200 : Int) ≤ 299 →
      (DecodeOutcome.eof : DecodeOutcome Bool) = .eof →
      doReq (α := Bool)
        (.response ⟨200, .parsed ⟨"", ⟨"", "", "", []⟩, 0⟩, .eof⟩)
        true false = ⟨none, false, true, true⟩)) :=
  claim8_sink_handling ⟨200, .parsed ⟨"", ⟨"", "", "", []⟩, 0⟩, .eof⟩ false

/-! ## Claim C4: safeclose on the response-body close path -/

/-- C4, counterexample: the claim says a close failure is at most
observable and never process-terminating, but at the concrete close
failure "close failed" both embedded `safeclose` variants (the
`log.Panic` one of the middle version and the `log.Fatal` one of the
first and third versions) terminate the process. -/
theorem claim4_counterexample :
    (safeclose (some "close failed")).terminatesProcess = true ∧
    (safecloseFatal (some "close failed")).terminatesProcess = true := by
  decide

/-- C4, amended: on every exit path of `do` that has a response, the body
close runs (the defer is registered); a failed close is logged but then
terminates the process, for both `safeclose` variants; a successful
close has no effect. -/
theorem claim4_close_behavior {α : Type} (r : HTTPResponse α)
    (hasSink : Bool) (zero : α) (msg : String) :
    (doReq (.response r) hasSink zero).closed = true ∧
    (safeclose (some msg)).logged = true ∧
    (safeclose (some msg)).terminatesProcess = true ∧
    (safecloseFatal (some msg)).logged = true ∧
    (safecloseFatal (some msg)).terminatesProcess = true ∧
    safeclose none = .noop ∧ safecloseFatal none = .noop := by
  refine ⟨?_, rfl, rfl, rfl, rfl, rfl, rfl⟩
  rw [doReq]
  cases check r.statusCode r.errBody with
  | some e => rfl
  | none =>
    cases hasSink with
    | false => rfl
    | true => cases r.decode <;> rfl

/-- C4, witness for the amended theorem at a concrete response and close
failure. -/
theorem claim4_witness :
    (doReq (α := Bool) (.response ⟨200, .parsed ⟨"", ⟨"", "", "", []⟩, 0⟩,
        .ok true⟩) true false).closed = true ∧
    (safeclose (some "boom")).logged = true ∧
    (safeclose (some "boom")).terminatesProcess = true ∧
    (safecloseFatal (some "boom")).logged = true ∧
    (safecloseFatal (some "boom")).terminatesProcess = true ∧
    safeclose none = .noop ∧ safecloseFatal none = .noop :=
  claim4_close_behavior ⟨200, .parsed ⟨"", ⟨"", "", "", []⟩, 0⟩, .ok true⟩
    true false "boom"

/-! ## Claim C5: base-URL normalization in New -/

/-- C5, counterexample: for the session whose base URL is "a//" (two
trailing '/' characters) the constructor succeeds but the resolved base
is "a//" again, which does not end in exactly one trailing '/' —
`strings.TrimSuffix` removes only one occurrence of the suffix. -/
theorem claim5_counterexample :
    (New (fun _ => true) (some ⟨"s", "a//"⟩)).2 =
      .ok ⟨⟨"s", "a//"⟩, "a//"⟩ ∧
    endsInExactlyOneSlash "a//" = false := by
  decide

/-- C5, amended: for every session with a non-empty base URL whose
normalized form parses, `New` succeeds and the resolved base is
`TrimSuffix(url, "/") + "/"`, which always ends in at least one '/';
it ends in exactly one trailing '/' whenever the input did not already
end in two or more '/' characters (an input ending in several slashes
keeps them, since only one is trimmed before the append). -/
theorem claim5_normalization (parseOk : String → Bool) (sess : Session)
    (hu : sess.url ≠ "")
    (hp : parseOk (normalizeURL sess.url) = true) :
    (New parseOk (some sess)).2 =
      .ok ⟨⟨sess.id, normalizeURL sess.url⟩, normalizeURL sess.url⟩ ∧
    strHasSuffix (normalizeURL sess.url) "/" = true ∧
    (strHasSuffix sess.url "//" = false →
      endsInExactlyOneSlash (normalizeURL sess.url) = true) := by
  refine ⟨?_, normalizeURL_ends_slash _, fun h2 => normalizeURL_one_slash h2⟩
  rw [New]
  simp only [if_neg hu, hp, if_pos]

/-- C5, witness for the amended theorem at the concrete base URL "a". -/
theorem claim5_witness :
    ("a" : String) ≠ "" ∧
    ((New (fun _ => true) (some ⟨"s", "a"⟩)).2 =
        .ok ⟨⟨"s", "a/"⟩, "a/"⟩ ∧
      strHasSuffix ("a/" : String) "/" = true ∧
      (strHasSuffix ("a" : String) "//" = false →
        endsInExactlyOneSlash ("a/" : String) = true)) :=
  ⟨by decide, claim5_normalization (fun _ => true) ⟨"s", "a"⟩
    (by decide) (by decide)⟩

/-! ## Claim C6: marker-key resolution order -/

/-- C6: the resolver consults the W3C marker key before the legacy marker
key — whenever the W3C key is present its reference is returned tagged
W3C, whatever else the map contains; and a response whose value map
contains only the legacy key makes `ElementFind` return that reference
tagged legacy (`WebElementIDLegacy`), not an error. -/
theorem claim6_marker_preference (m : ElemMap) (ref b v : String)
    (hb : b ≠ "") (hv : v ≠ "") :
    (List.lookup WebElementIDW3C m = some ref →
      resolveElement m = .ok ⟨WebElementIDW3C, ref⟩) ∧
    ElementFind b v (.ok [(WebElementIDLegacy, ref)]) =
      .ok ⟨WebElementIDLegacy, ref⟩ := by
  constructor
  · intro h
    rw [resolveElement, h]
  · rw [ElementFind, if_neg hb, if_neg hv]
    rfl

/-- C6, witness: a map carrying both marker keys resolves to the W3C one;
a legacy-only response resolves to a legacy-tagged element. -/
theorem claim6_witness :
    ("css selector" : String) ≠ "" ∧ ("#x" : String) ≠ "" ∧
    ((List.lookup WebElementIDW3C
        [(WebElementIDW3C, "r"), (WebElementIDLegacy, "l")] = some "r" →
      resolveElement [(WebElementIDW3C, "r"), (WebElementIDLegacy, "l")] =
        .ok ⟨WebElementIDW3C, "r"⟩) ∧
    ElementFind "css selector" "#x" (.ok [(WebElementIDLegacy, "r")]) =
      .ok ⟨WebElementIDLegacy, "r"⟩) :=
  ⟨by decide, by decide,
    claim6_marker_preference [(WebElementIDW3C, "r"), (WebElementIDLegacy, "l")]
      "r" "css selector" "#x" (by decide) (by decide)⟩

/-! ## Claim C7: not-found conditions of element lookups -/

/-- C7: a single-element lookup whose decoded map has neither marker key
returns the typed `ErrorNoSuchElement`, not a decoding failure; a
multi-element lookup returns `ErrorNoSuchElement` exactly on an empty
decoded list, while a markerless entry inside a non-empty list is
tolerated and becomes the zero-valued placeholder at its index. -/
theorem claim7_not_found_conditions (b v : String) (hb : b ≠ "")
    (hv : v ≠ "") (m : ElemMap)
    (hw : List.lookup WebElementIDW3C m = none)
    (hl : List.lookup WebElementIDLegacy m = none)
    (ms : List ElemMap) (hms : ms ≠ []) :
    ElementFind b v (.ok m) = .error (.sentinel .noSuchElement) ∧
    ElementsFind b v (.ok []) = .error (.sentinel .noSuchElement) ∧
    ElementsFind b v (.ok ms) = .ok (ms.map resolveEntry) ∧
    resolveEntry m = ⟨"", ""⟩ := by
  refine ⟨?_, ?_, ?_, ?_⟩
  · rw [ElementFind, if_neg hb, if_neg hv]
    show resolveElement m = .error (.sentinel .noSuchElement)
    rw [resolveElement, hw, hl]
  · rw [ElementsFind, if_neg hb, if_neg hv]
    rfl
  · rw [ElementsFind, if_neg hb, if_neg hv]
    show (if ms.length = 0 then Except.error (GoError.sentinel .noSuchElement)
      else Except.ok (ms.map resolveEntry)) = Except.ok (ms.map resolveEntry)
    rw [if_neg (fun h => hms (List.length_eq_zero.mp h))]
  · rw [resolveEntry, hw, hl]

/-- C7, witness: a markerless single response, an empty list, and a
one-entry list whose entry is markerless. -/
theorem claim7_witness :
    ("css selector" : String) ≠ "" ∧ ("#x" : String) ≠ "" ∧
    List.lookup WebElementIDW3C [(("other" : String), ("y" : String))] =
      none ∧
    ([[(("other" : String), ("y" : String))]] : List ElemMap) ≠ [] ∧
    (ElementFind "css selector" "#x" (.ok [("other", "y")]) =
        .error (.sentinel .noSuchElement) ∧
      ElementsFind "css selector" "#x" (.ok []) =
        .error (.sentinel .noSuchElement) ∧
      ElementsFind "css selector" "#x" (.ok [[("other", "y")]]) =
        .ok ([[("other", "y")]].map resolveEntry) ∧
      resolveEntry [("other", "y")] = ⟨"", ""⟩) :=
  ⟨by decide, by decide, by decide, by decide,
    claim7_not_found_conditions "css selector" "#x" (by decide) (by decide)
      [("other", "y")] (by decide) (by decide) [[("other", "y")]]
      (by decide)⟩

/-! ## Claim C10: New mutates the caller's session -/

/-- C10, counterexample: the claim says the caller's Session no longer
holds the original URL string after `New`; but for the already
normalized base URL "x/" the constructor succeeds and the caller's
session holds exactly the original string. -/
theorem claim10_counterexample :
    (New (fun _ => true) (some ⟨"abc", "x/"⟩)).1 = some ⟨"abc", "x/"⟩ ∧
    (New (fun _ => true) (some ⟨"abc", "x/"⟩)).2 =
      .ok ⟨⟨"abc", "x/"⟩, "x/"⟩ := by
  decide

/-- C10, amended: for every session with a non-empty URL, `New` overwrites
the caller's session URL in place with the normalized form before the
URL parse (so even when the parse fails); the stored string differs
from the original exactly when the original did not end in '/' — an
input already ending in '/' is stored back unchanged; and `New` accepts
an empty ID field, rejecting only a nil session and an empty URL. -/
theorem claim10_session_mutation (parseOk : String → Bool) (sess : Session)
    (hu : sess.url ≠ "") :
    (New parseOk (some sess)).1 =
      some ⟨sess.id, normalizeURL sess.url⟩ ∧
    (strHasSuffix sess.url "/" = false → normalizeURL sess.url ≠ sess.url) ∧
    (strHasSuffix sess.url "/" = true → normalizeURL sess.url = sess.url) ∧
    (parseOk (normalizeURL sess.url) = true →
      (New parseOk (some sess)).2 =
        .ok ⟨⟨sess.id, normalizeURL sess.url⟩, normalizeURL sess.url⟩) ∧
    (New parseOk none).2 = .error (.strMsg "session is empty") := by
  refine ⟨?_, fun h => normalizeURL_ne_of_not_ends_slash h,
    fun h => normalizeURL_of_ends_slash h, fun hp => ?_, rfl⟩
  · rw [New]
    simp only [if_neg hu]
    cases hpk : parseOk (normalizeURL sess.url) <;> simp [hpk]
  · rw [New]
    simp only [if_neg hu, hp, if_pos]

/-- C10, witness for the amended theorem: a session with an empty ID and
base URL "x" (no trailing '/'). -/
theorem claim10_witness :
    ("x" : String) ≠ "" ∧
    ((New (fun _ => true) (some ⟨"", "x"⟩)).1 = some ⟨"", "x/"⟩ ∧
      (strHasSuffix ("x" : String) "/" = false → ("x/" : String) ≠ "x") ∧
      (strHasSuffix ("x" : String) "/" = true → ("x/" : String) = "x") ∧
      ((fun (_ : String) => true) "x/" = true →
        (New (fun _ => true) (some ⟨"", "x"⟩)).2 =
          .ok ⟨⟨"", "x/"⟩, "x/"⟩) ∧
      (New (fun _ => true) none).2 = .error (.strMsg "session is empty")) :=
  ⟨by decide, claim10_session_mutation (fun _ => true) ⟨"", "x"⟩ (by decide)⟩

end Wdc
